import Mathlib

/-!
Verification of the real-time coordination core of the CrypticHunt repository:
the question lock manager, the wrong-attempt/penalty tracker, the solve-quota
tracker, and the event broadcaster.  Database tables are modelled as Lean lists
of rows, timestamps as integer seconds, and each Go service method as a pure
function from the table state (and the current time) to the new table state and
the method's return values.  Storage itself is assumed to execute each SQL
statement successfully, so the only error values modelled are the ones the Go
code constructs itself (e.g. the "already locked" error of LockQuestion).
-/

namespace CrypticHunt

/-! ### Lock manager (handlers/question lock service)

`question_locks` has one row per locked question: (question_id,
locked_by_team_id, locked_at).  `teams` supplies team names for the JOIN in
the read queries. -/

structure LockRow where
  question_id : Int
  locked_by_team_id : Int
  locked_at : Int
deriving DecidableEq, Repr

structure Team where
  id : Int
  name : String
deriving DecidableEq, Repr

/-- The row shape produced by the `question_locks JOIN teams` queries
(Go struct `QuestionLock`). -/
structure QuestionLock where
  question_id : Int
  locked_by_team_id : Int
  locked_by_name : String
  locked_at : Int
deriving DecidableEq, Repr

/-- Staleness threshold of the lock manager: `datetime('now', '-10 seconds')`. -/
def staleSeconds : Int := 10

/-- The exact error message `LockQuestion` formats on contention;
`TryLockQuestion` matches it by string equality. -/
def alreadyLockedMsg (questionID : Int) : String :=
  "question " ++ toString questionID ++ " is already locked by another team"

/-- `LockQuestion`: a single conditional insert
`INSERT INTO question_locks ... SELECT ?, ?, ? WHERE NOT EXISTS (SELECT 1 FROM
question_locks WHERE question_id = ?)`; zero rows affected means the question
was already locked, which is returned as the formatted error. -/
def LockQuestion (db : List LockRow) (questionID teamID now : Int) :
    List LockRow × Option String :=
  if db.any (fun r => decide (r.question_id = questionID)) then
    (db, some (alreadyLockedMsg questionID))
  else
    (db ++ [⟨questionID, teamID, now⟩], none)

/-- `TryLockQuestion`: calls `LockQuestion` and converts exactly the
"already locked" error into the non-error result `(false, nil)`. -/
def TryLockQuestion (db : List LockRow) (questionID teamID now : Int) :
    List LockRow × Bool × Option String :=
  match LockQuestion db questionID teamID now with
  | (db2, none) => (db2, true, none)
  | (db2, some msg) =>
    if msg = alreadyLockedMsg questionID then (db2, false, none)
    else (db2, false, some msg)

/-- `UnlockQuestion`: `DELETE FROM question_locks WHERE question_id = ?`;
only a storage failure (not modelled) can produce an error. -/
def UnlockQuestion (db : List LockRow) (questionID : Int) :
    List LockRow × Option String :=
  (db.filter (fun r => !decide (r.question_id = questionID)), none)

def lookupTeam (teams : List Team) (teamID : Int) : Option Team :=
  teams.find? (fun t => decide (t.id = teamID))

/-- `IsQuestionLocked`: first deletes this question's lock rows with
`locked_at < datetime('now', '-10 seconds')`, then reads the remaining lock
row joined with `teams`; `sql.ErrNoRows` is reported as "not locked". -/
def IsQuestionLocked (teams : List Team) (db : List LockRow)
    (questionID now : Int) : List LockRow × Bool × Option QuestionLock :=
  let db2 := db.filter
    (fun r => !decide (r.question_id = questionID ∧ r.locked_at < now - staleSeconds))
  match db2.find? (fun r => decide (r.question_id = questionID)) with
  | none => (db2, false, none)
  | some r =>
    match lookupTeam teams r.locked_by_team_id with
    | none => (db2, false, none)
    | some t =>
      (db2, true, some ⟨r.question_id, r.locked_by_team_id, t.name, r.locked_at⟩)

/-- `GetAllLockedQuestions`: deletes every lock row with
`locked_at < datetime('now', '-10 seconds')`, then lists the remaining rows
joined with `teams`. -/
def GetAllLockedQuestions (teams : List Team) (db : List LockRow) (now : Int) :
    List LockRow × List QuestionLock :=
  let db2 := db.filter (fun r => !decide (r.locked_at < now - staleSeconds))
  (db2, db2.filterMap (fun r =>
    (lookupTeam teams r.locked_by_team_id).map
      (fun t => ⟨r.question_id, r.locked_by_team_id, t.name, r.locked_at⟩)))

/-- `CleanupStaleLocks`: the periodic sweep; returns the surviving table. -/
def CleanupStaleLocks (db : List LockRow) (now : Int) : List LockRow :=
  db.filter (fun r => !decide (r.locked_at < now - staleSeconds))

/-! ### Attempt/penalty tracker (services/attempts.go)

`question_attempts` has one row per (team_id, question_id) composite key. -/

structure QuestionAttempt where
  team_id : Int
  question_id : Int
  wrong_attempts : Int
  total_penalty : Int
  last_attempt_at : Int
deriving DecidableEq, Repr

/-- `GetQuestionAttempts`: point read on the composite key; on
`sql.ErrNoRows` it returns a fresh record with zero counters and
`LastAttemptAt: time.Now()` instead of an error. -/
def GetQuestionAttempts (db : List QuestionAttempt) (teamID questionID now : Int) :
    QuestionAttempt :=
  match db.find? (fun r => decide (r.team_id = teamID ∧ r.question_id = questionID)) with
  | some r => r
  | none => ⟨teamID, questionID, 0, 0, now⟩

/-- The escalating penalty switch of `RecordWrongAttempt`, on the
pre-increment wrong-attempt count; Go integer division truncates toward
zero, hence `Int.tdiv`. -/
def penaltySchedule (wrongAttempts questionPoints : Int) : Int :=
  if wrongAttempts = 0 then 0
  else if wrongAttempts = 1 then Int.tdiv (questionPoints * 10) 100
  else if wrongAttempts = 2 then Int.tdiv (questionPoints * 30) 100
  else if wrongAttempts = 3 then Int.tdiv (questionPoints * 50) 100
  else if wrongAttempts = 4 then Int.tdiv (questionPoints * 70) 100
  else 0

/-- The `INSERT ... ON CONFLICT(team_id, question_id) DO UPDATE` statement of
`RecordWrongAttempt`. -/
def upsertAttempt (db : List QuestionAttempt)
    (teamID questionID wrongAttempts totalPenalty lastAt : Int) :
    List QuestionAttempt :=
  if db.any (fun r => decide (r.team_id = teamID ∧ r.question_id = questionID)) then
    db.map (fun r =>
      if r.team_id = teamID ∧ r.question_id = questionID then
        ⟨teamID, questionID, wrongAttempts, totalPenalty, lastAt⟩
      else r)
  else
    db ++ [⟨teamID, questionID, wrongAttempts, totalPenalty, lastAt⟩]

/-- `RecordWrongAttempt`: reads the current attempt record, computes the
penalty from the pre-increment count, then upserts
(count + 1, total + penalty, now); returns (penalty, 5 - newAttempts, newDb). -/
def RecordWrongAttempt (db : List QuestionAttempt)
    (teamID questionID questionPoints now : Int) :
    Int × Int × List QuestionAttempt :=
  let attempt := GetQuestionAttempts db teamID questionID now
  let penalty := penaltySchedule attempt.wrong_attempts questionPoints
  let newAttempts := attempt.wrong_attempts + 1
  let newTotalPenalty := attempt.total_penalty + penalty
  let attemptsLeft := 5 - newAttempts
  (penalty, attemptsLeft,
    upsertAttempt db teamID questionID newAttempts newTotalPenalty now)

/-- `IsQuestionExhausted`: `attempt.WrongAttempts >= 5`. -/
def IsQuestionExhausted (db : List QuestionAttempt) (teamID questionID now : Int) :
    Bool :=
  decide (5 ≤ (GetQuestionAttempts db teamID questionID now).wrong_attempts)

/-- The wrong-answer path of `QuestionHandler` (handlers/game.go): the handler
first checks `IsQuestionExhausted` and rejects the submission (no penalty is
computed) when it is true; otherwise it records the wrong attempt.  Returns
the new table and `some (penalty, attemptsLeft)`, or `none` when rejected. -/
def submitWrongAnswer (db : List QuestionAttempt)
    (teamID questionID questionPoints now : Int) :
    List QuestionAttempt × Option (Int × Int) :=
  if IsQuestionExhausted db teamID questionID now then (db, none)
  else
    let r := RecordWrongAttempt db teamID questionID questionPoints now
    (r.2.2, some (r.1, r.2.1))

/-- Runs `n` successive wrong-answer submissions through the handler path and
collects each submission's outcome. -/
def runWrongSubmissions (teamID questionID questionPoints now : Int) :
    Nat → List QuestionAttempt → List (Option (Int × Int))
  | 0, _ => []
  | n + 1, db =>
    let step := submitWrongAnswer db teamID questionID questionPoints now
    step.2 :: runWrongSubmissions teamID questionID questionPoints now n step.1

/-! ### Quota tracker (team_quota_slots service)

`team_quota_slots` has one row per team: (team_id, current_slot_start,
questions_solved_in_slot). -/

/-- `QuotaLimit = 10` questions per slot. -/
def QuotaLimit : Int := 10

/-- `SlotDuration = 10 * time.Hour`, in seconds. -/
def SlotDuration : Int := 10 * 3600

structure QuotaSlot where
  team_id : Int
  current_slot_start : Int
  questions_solved_in_slot : Int
deriving DecidableEq, Repr

/-- `CreateQuotaSlot`: inserts a fresh row (team_id, now, 0) and returns it. -/
def CreateQuotaSlot (db : List QuotaSlot) (teamID now : Int) :
    List QuotaSlot × QuotaSlot :=
  (db ++ [⟨teamID, now, 0⟩], ⟨teamID, now, 0⟩)

/-- `ResetQuotaSlot`: `UPDATE team_quota_slots SET current_slot_start = ?,
questions_solved_in_slot = 0 WHERE team_id = ?`, returning the fresh slot. -/
def ResetQuotaSlot (db : List QuotaSlot) (teamID now : Int) :
    List QuotaSlot × QuotaSlot :=
  (db.map (fun r =>
      if r.team_id = teamID then
        { r with current_slot_start := now, questions_solved_in_slot := 0 }
      else r),
   ⟨teamID, now, 0⟩)

/-- `GetQuotaSlot`: point read; on `sql.ErrNoRows` creates a fresh slot; if
`time.Since(slot.CurrentSlotStart) >= SlotDuration` resets the slot; otherwise
returns the stored slot unchanged. -/
def GetQuotaSlot (db : List QuotaSlot) (teamID now : Int) :
    List QuotaSlot × QuotaSlot :=
  match db.find? (fun r => decide (r.team_id = teamID)) with
  | none => CreateQuotaSlot db teamID now
  | some slot =>
    if SlotDuration ≤ now - slot.current_slot_start then
      ResetQuotaSlot db teamID now
    else
      (db, slot)

/-- `IncrementQuotaCount`: `UPDATE team_quota_slots SET
questions_solved_in_slot = questions_solved_in_slot + 1 WHERE team_id = ?`;
no row is created, no expiry check is made, and only a storage failure
(not modelled) can produce an error. -/
def IncrementQuotaCount (db : List QuotaSlot) (teamID : Int) :
    List QuotaSlot × Option String :=
  (db.map (fun r =>
      if r.team_id = teamID then
        { r with questions_solved_in_slot := r.questions_solved_in_slot + 1 }
      else r),
   none)

/-- `CanSolveQuestion`: allowed iff the slot's count is below `QuotaLimit`. -/
def CanSolveQuestion (db : List QuotaSlot) (teamID now : Int) :
    List QuotaSlot × Bool × QuotaSlot :=
  let r := GetQuotaSlot db teamID now
  (r.1, decide (r.2.questions_solved_in_slot < QuotaLimit), r.2)

/-! ### Event broadcaster (services/broadcaster.go) -/

/-- Go `type EventType string`. -/
abbrev EventType := String

/-- The broadcast `Event`: type tag, opaque key/value payload, timestamp. -/
structure Event where
  type : EventType
  data : List (String × String)
  timestamp : Int
deriving DecidableEq, Repr

/-- Capacity of the internal dispatch channel: `make(chan Event, 1000)`. -/
def broadcastCapacity : Nat := 1000

/-- Result of a `Broadcast` call: the dispatch queue afterwards, and whether
the event was dropped with a warning. -/
structure BroadcastOutcome where
  queue : List Event
  dropped : Bool
deriving DecidableEq, Repr

/-- `Broadcast(eventType, data)`: constructs an Event timestamped now and
offers it to the bounded dispatch channel via
`select { case b.broadcast <- event: ... case <-time.After(100ms): log }` —
the send succeeds exactly when the channel has free capacity within the
bound, otherwise the event is dropped and a warning logged; the method
returns nothing either way. -/
def Broadcast (queue : List Event) (eventType : EventType)
    (data : List (String × String)) (now : Int) : BroadcastOutcome :=
  let event : Event := ⟨eventType, data, now⟩
  if queue.length < broadcastCapacity then
    ⟨queue ++ [event], false⟩
  else
    ⟨queue, true⟩

/-- What one input to the broadcaster does with an event: which events it
publishes to the Redis relay channel and which it dispatches to the local
clients. -/
structure DispatchOut where
  toRedis : List Event
  toClients : List Event
deriving DecidableEq, Repr

/-- The `case event := <-b.broadcast` branch of `run`: a locally broadcast
event is published to Redis (when a relay client is configured) and
dispatched to the local clients. -/
def handleLocalEvent (redisConfigured : Bool) (event : Event) : DispatchOut :=
  { toRedis := if redisConfigured then [event] else [], toClients := [event] }

/-- The body of `subscribeToRedis` for one relay message: a payload that fails
to unmarshal (`parsed = none`) is skipped; a parsed event is dispatched to the
local clients only and never published back to Redis. -/
def handleRelayMessage (parsed : Option Event) : DispatchOut :=
  match parsed with
  | none => { toRedis := [], toClients := [] }
  | some event => { toRedis := [], toClients := [event] }

/-! ### Theorems -/

/-- C1: `TryLockQuestion(question_id, team_id)` is insert-iff-absent: when no
lock row exists for the question, the row (question_id, team_id, now) is
inserted and the call reports success; when a lock row already exists, the
call reports `(false, nil)` — a non-error negative result — and the table,
including the pre-existing row, is left completely unchanged (never an
upsert). -/
theorem TryLockQuestion_insert_iff_absent (db : List LockRow)
    (questionID teamID now : Int) :
    ((∀ r ∈ db, r.question_id ≠ questionID) →
      TryLockQuestion db questionID teamID now =
        (db ++ [⟨questionID, teamID, now⟩], true, none)) ∧
    ((∃ r ∈ db, r.question_id = questionID) →
      TryLockQuestion db questionID teamID now = (db, false, none)) := by
  constructor
  · intro h
    have hany : db.any (fun r => decide (r.question_id = questionID)) = false := by
      rw [List.any_eq_false]
      intro r hr
      simpa using h r hr
    simp [TryLockQuestion, LockQuestion, hany]
  · rintro ⟨r, hr, hq⟩
    have hany : db.any (fun r => decide (r.question_id = questionID)) = true := by
      rw [List.any_eq_true]
      exact ⟨r, hr, by simpa using hq⟩
    simp [TryLockQuestion, LockQuestion, hany]

/-- Witness for C1: acquiring question 7 on an empty table inserts the row
and succeeds; retrying against an existing lock held by team 2 returns
`(false, nil)` and leaves the table unchanged. -/
theorem TryLockQuestion_insert_iff_absent_witness :
    TryLockQuestion [] 7 1 100 = ([⟨7, 1, 100⟩], true, none) ∧
    TryLockQuestion [⟨7, 2, 50⟩] 7 1 100 = ([⟨7, 2, 50⟩], false, none) :=
  ⟨(TryLockQuestion_insert_iff_absent [] 7 1 100).1 (by decide),
   (TryLockQuestion_insert_iff_absent [⟨7, 2, 50⟩] 7 1 100).2
     ⟨⟨7, 2, 50⟩, by decide, rfl⟩⟩

/-- C2: when every lock row of a question is older than the 10-second
staleness threshold, `IsQuestionLocked` reports the question as unlocked and
purges the stale rows before answering, and `GetAllLockedQuestions` does not
include the question in its listing — with no help from the periodic
`CleanupStaleLocks` sweep. -/
theorem stale_lock_self_healing (teams : List Team) (db : List LockRow)
    (questionID now : Int)
    (h : ∀ r ∈ db, r.question_id = questionID →
      r.locked_at < now - staleSeconds) :
    (IsQuestionLocked teams db questionID now).2.1 = false ∧
    ((IsQuestionLocked teams db questionID now).1.all
      (fun r => !decide (r.question_id = questionID))) = true ∧
    ((GetAllLockedQuestions teams db now).2.all
      (fun l => !decide (l.question_id = questionID))) = true := by
  have hfilter : ∀ r ∈ db.filter
      (fun r => !decide (r.question_id = questionID ∧
        r.locked_at < now - staleSeconds)),
      r.question_id ≠ questionID := by
    intro r hr
    rw [List.mem_filter] at hr
    obtain ⟨hmem, hcond⟩ := hr
    simp only [Bool.not_eq_eq_eq_not, Bool.not_true, decide_eq_false_iff_not]
      at hcond
    intro hq
    exact hcond ⟨hq, h r hmem hq⟩
  have hnone : (db.filter
      (fun r => !decide (r.question_id = questionID ∧
        r.locked_at < now - staleSeconds))).find?
      (fun r => decide (r.question_id = questionID)) = none := by
    rw [List.find?_eq_none]
    intro r hr
    simpa using hfilter r hr
  have heq : IsQuestionLocked teams db questionID now =
      (db.filter (fun r => !decide (r.question_id = questionID ∧
        r.locked_at < now - staleSeconds)), false, none) := by
    simp only [IsQuestionLocked]
    rw [hnone]
  refine ⟨?_, ?_, ?_⟩
  · rw [heq]
  · rw [heq, List.all_eq_true]
    intro r hr
    simpa using hfilter r hr
  · rw [List.all_eq_true]
    intro l hl
    simp only [GetAllLockedQuestions, List.mem_filterMap] at hl
    obtain ⟨r, hr, hf⟩ := hl
    rw [List.mem_filter] at hr
    obtain ⟨hmem, hcond⟩ := hr
    simp only [Bool.not_eq_eq_eq_not, Bool.not_true, decide_eq_false_iff_not,
      not_lt] at hcond
    obtain ⟨t, _, ht⟩ := Option.map_eq_some'.mp hf
    simp only [Bool.not_eq_eq_eq_not, Bool.not_true, decide_eq_false_iff_not]
    intro hq
    have hrq : r.question_id = questionID := by
      rw [← ht] at hq
      exact hq
    have := h r hmem hrq
    omega

/-- Witness for C2: a lock on question 7 placed at time 50 is stale at time
100; it is reported unlocked, purged, and absent from the listing. -/
theorem stale_lock_self_healing_witness :
    (IsQuestionLocked [⟨2, "B"⟩] [⟨7, 2, 50⟩] 7 100).2.1 = false ∧
    ((IsQuestionLocked [⟨2, "B"⟩] [⟨7, 2, 50⟩] 7 100).1.all
      (fun r => !decide (r.question_id = 7))) = true ∧
    ((GetAllLockedQuestions [⟨2, "B"⟩] [⟨7, 2, 50⟩] 100).2.all
      (fun l => !decide (l.question_id = 7))) = true :=
  stale_lock_self_healing [⟨2, "B"⟩] [⟨7, 2, 50⟩] 7 100 (by decide)

/-- C3: with `question_points = 100` and no prior attempt row, five
successive wrong submissions through the handler path yield penalties
0, 10, 30, 50, 70 with attempts remaining 4, 3, 2, 1, 0, and the sixth
submission is rejected (`none`) by the exhaustion check before any penalty
is computed. -/
theorem penalty_sequence_five_wrong_attempts :
    runWrongSubmissions 1 1 100 0 6 [] =
      [some (0, 4), some (10, 3), some (30, 2), some (50, 1), some (70, 0),
       none] := by
  decide

/-- C4: `GetQuotaSlot` lazily creates a slot (count 0, start = now) when none
exists; a stored slot read at or after `current_slot_start + SlotDuration` is
rolled over and returned as (count 0, start = read time); a slot read before
that instant is returned unchanged. -/
theorem GetQuotaSlot_lazy_create_and_rollover (db : List QuotaSlot)
    (teamID now t0 c : Int) :
    ((∀ r ∈ db, r.team_id ≠ teamID) →
      GetQuotaSlot db teamID now = (db ++ [⟨teamID, now, 0⟩], ⟨teamID, now, 0⟩)) ∧
    (db.find? (fun r => decide (r.team_id = teamID)) = some ⟨teamID, t0, c⟩ →
      ((t0 + SlotDuration ≤ now →
          (GetQuotaSlot db teamID now).2 = ⟨teamID, now, 0⟩) ∧
       (now < t0 + SlotDuration →
          GetQuotaSlot db teamID now = (db, ⟨teamID, t0, c⟩)))) := by
  constructor
  · intro h
    have hnone : db.find? (fun r => decide (r.team_id = teamID)) = none := by
      rw [List.find?_eq_none]
      intro r hr
      simpa using h r hr
    simp only [GetQuotaSlot]
    rw [hnone]
    rfl
  · intro hfind
    constructor
    · intro hle
      have hcond : SlotDuration ≤ now - t0 := by omega
      simp only [GetQuotaSlot]
      rw [hfind]
      simp [ResetQuotaSlot, hcond]
    · intro hlt
      have hcond : ¬ SlotDuration ≤ now - t0 := by omega
      simp only [GetQuotaSlot]
      rw [hfind]
      simp [hcond]

/-- Witness for C4: no slot yields a fresh (now, 0) slot; a slot started at 0
with count 7 read at 36000 rolls over to (36000, 0); read at 35999 it is
returned unchanged. -/
theorem GetQuotaSlot_lazy_create_and_rollover_witness :
    GetQuotaSlot [] 1 100 = ([⟨1, 100, 0⟩], ⟨1, 100, 0⟩) ∧
    (GetQuotaSlot [⟨1, 0, 7⟩] 1 36000).2 = ⟨1, 36000, 0⟩ ∧
    GetQuotaSlot [⟨1, 0, 7⟩] 1 35999 = ([⟨1, 0, 7⟩], ⟨1, 0, 7⟩) :=
  ⟨(GetQuotaSlot_lazy_create_and_rollover [] 1 100 0 0).1 (by decide),
   ((GetQuotaSlot_lazy_create_and_rollover [⟨1, 0, 7⟩] 1 36000 0 7).2
      (by decide)).1 (by decide),
   ((GetQuotaSlot_lazy_create_and_rollover [⟨1, 0, 7⟩] 1 35999 0 7).2
      (by decide)).2 (by decide)⟩

/-- C5: `UnlockQuestion` unconditionally removes the lock row and is
idempotent: neither of two successive calls returns an error, the second
call changes nothing, and afterwards no lock row exists for the question. -/
theorem UnlockQuestion_idempotent_no_error (db : List LockRow)
    (questionID : Int) :
    (UnlockQuestion db questionID).2 = none ∧
    UnlockQuestion (UnlockQuestion db questionID).1 questionID =
      ((UnlockQuestion db questionID).1, none) ∧
    ((UnlockQuestion db questionID).1.all
      (fun r => !decide (r.question_id = questionID))) = true := by
  refine ⟨rfl, ?_, ?_⟩
  · unfold UnlockQuestion
    rw [List.filter_filter]
    simp
  · rw [List.all_eq_true]
    intro r hr
    exact (List.mem_filter.mp hr).2

/-- C6: an event received from the Redis relay channel is dispatched to the
local clients only and never published back to the relay (a malformed
payload is skipped entirely), while a locally broadcast event is dispatched
to the local clients and published to the relay exactly when one is
configured — so relayed events cannot propagate in a loop. -/
theorem relay_no_republish_local_publish (parsed : Option Event)
    (redisConfigured : Bool) (event : Event) :
    (handleRelayMessage parsed).toRedis = [] ∧
    (handleRelayMessage (some event)).toClients = [event] ∧
    (handleLocalEvent true event).toRedis = [event] ∧
    (handleLocalEvent false event).toRedis = [] ∧
    (handleLocalEvent redisConfigured event).toClients = [event] := by
  cases parsed <;>
    exact ⟨rfl, rfl, rfl, rfl, rfl⟩

/-- C7: `Broadcast` constructs an event carrying the supplied current
timestamp; when the dispatch queue (capacity 1000) has room the event is
appended and not dropped, and when the queue is full the event is dropped
with a warning and the queue is unchanged — the call returns in both cases
and never produces an error. -/
theorem Broadcast_enqueue_or_drop (queue : List Event)
    (eventType : EventType) (data : List (String × String)) (now : Int) :
    (queue.length < broadcastCapacity →
      Broadcast queue eventType data now =
        ⟨queue ++ [⟨eventType, data, now⟩], false⟩) ∧
    (broadcastCapacity ≤ queue.length →
      Broadcast queue eventType data now = ⟨queue, true⟩) := by
  constructor
  · intro h
    simp [Broadcast, h]
  · intro h
    have hcond : ¬ queue.length < broadcastCapacity := by omega
    simp [Broadcast, hcond]

/-- Witness for C7: on an empty queue the event (with timestamp 42) is
enqueued; on a queue holding 1000 events it is dropped and the queue is
unchanged. -/
theorem Broadcast_enqueue_or_drop_witness :
    Broadcast [] "question_solved" [] 42 =
      ⟨[⟨"question_solved", [], 42⟩], false⟩ ∧
    Broadcast (List.replicate 1000 ⟨"x", [], 0⟩) "question_solved" [] 42 =
      ⟨List.replicate 1000 ⟨"x", [], 0⟩, true⟩ :=
  ⟨(Broadcast_enqueue_or_drop [] "question_solved" [] 42).1 (by decide),
   (Broadcast_enqueue_or_drop (List.replicate 1000 ⟨"x", [], 0⟩)
      "question_solved" [] 42).2
     (by rw [List.length_replicate]; decide)⟩

/-- C8 counterexample: `GetQuestionAttempts` on a pair with no attempt row
does not return a zero-valued `last_attempt_at` — at team 1, question 1,
current time 5 and an empty table, the returned `last_attempt_at` is the
current time 5, not 0. -/
theorem GetQuestionAttempts_missing_row_last_attempt_not_zero :
    (GetQuestionAttempts [] 1 1 5).last_attempt_at = 5 ∧
    (GetQuestionAttempts [] 1 1 5).last_attempt_at ≠ 0 := by
  decide

/-- C8 amended: for every (team_id, question_id) pair with no attempt row,
`GetQuestionAttempts` returns — without an error — a record with
`wrong_attempts = 0`, `total_penalty = 0`, and `last_attempt_at` set to the
current time (`time.Now()`), not a zero-valued timestamp. -/
theorem GetQuestionAttempts_missing_row_defaults (db : List QuestionAttempt)
    (teamID questionID now : Int)
    (h : ∀ r ∈ db, ¬(r.team_id = teamID ∧ r.question_id = questionID)) :
    GetQuestionAttempts db teamID questionID now =
      ⟨teamID, questionID, 0, 0, now⟩ := by
  have hnone : db.find?
      (fun r => decide (r.team_id = teamID ∧ r.question_id = questionID)) =
      none := by
    rw [List.find?_eq_none]
    intro r hr
    simpa using h r hr
  simp only [GetQuestionAttempts]
  rw [hnone]

/-- Witness for the amended C8: on an empty table at time 5 the default
record carries the current time. -/
theorem GetQuestionAttempts_missing_row_defaults_witness :
    GetQuestionAttempts [] 1 1 5 = ⟨1, 1, 0, 0, 5⟩ :=
  GetQuestionAttempts_missing_row_defaults [] 1 1 5 (by decide)

/-- Helper: mapping an update function over a list turns the first `p`-match
into the replacement element, provided the update preserves non-matches as
non-matches, rewrites matches to the replacement, and the replacement itself
matches. -/
theorem find?_map_update {α : Type} (p : α → Bool) (f : α → α) (b : α)
    (hneg : ∀ x, p x = false → p (f x) = false)
    (hpos : ∀ x, p x = true → f x = b) (hb : p b = true) :
    ∀ (l : List α) (a : α), l.find? p = some a →
      (l.map f).find? p = some b := by
  intro l
  induction l with
  | nil =>
    intro a ha
    simp at ha
  | cons x xs ih =>
    intro a ha
    by_cases hx : p x = true
    · rw [List.map_cons, hpos x hx, List.find?_cons_of_pos _ hb]
    · have hx' : p x = false := by
        simpa using hx
      rw [List.map_cons, List.find?_cons_of_neg _ (by simp [hneg x hx'])]
      rw [List.find?_cons_of_neg _ (by simp [hx'])] at ha
      exact ih a ha

/-- C9: when the stored wrong-attempt count is already ≥ 5,
`RecordWrongAttempt` itself does not reject the call: it computes penalty 0
(the switch's default branch), still increments the stored count beyond the
exhaustion threshold, and returns a negative `attemptsLeft = 5 - newCount`;
the ceiling is enforced only by the handler's prior `IsQuestionExhausted`
check, which rejects the submission without recording anything. -/
theorem RecordWrongAttempt_past_exhaustion (db : List QuestionAttempt)
    (teamID questionID questionPoints now : Int)
    (h : 5 ≤ (GetQuestionAttempts db teamID questionID now).wrong_attempts) :
    (RecordWrongAttempt db teamID questionID questionPoints now).1 = 0 ∧
    (RecordWrongAttempt db teamID questionID questionPoints now).2.1 =
      5 - ((GetQuestionAttempts db teamID questionID now).wrong_attempts + 1) ∧
    (RecordWrongAttempt db teamID questionID questionPoints now).2.1 < 0 ∧
    (GetQuestionAttempts
        (RecordWrongAttempt db teamID questionID questionPoints now).2.2
        teamID questionID now).wrong_attempts =
      (GetQuestionAttempts db teamID questionID now).wrong_attempts + 1 ∧
    IsQuestionExhausted db teamID questionID now = true ∧
    submitWrongAnswer db teamID questionID questionPoints now = (db, none) := by
  have hpen : penaltySchedule
      (GetQuestionAttempts db teamID questionID now).wrong_attempts
      questionPoints = 0 := by
    unfold penaltySchedule
    rw [if_neg (by omega), if_neg (by omega), if_neg (by omega),
      if_neg (by omega), if_neg (by omega)]
  have hexh : IsQuestionExhausted db teamID questionID now = true := by
    unfold IsQuestionExhausted
    exact decide_eq_true h
  refine ⟨?_, ?_, ?_, ?_, hexh, ?_⟩
  · simp only [RecordWrongAttempt]
    exact hpen
  · rfl
  · simp only [RecordWrongAttempt]
    omega
  · -- The stored row exists (otherwise the read defaults to 0 attempts,
    -- contradicting h), so the upsert takes its UPDATE branch and the next
    -- read finds the updated row.
    obtain ⟨a, hfind⟩ : ∃ a, db.find?
        (fun r => decide (r.team_id = teamID ∧ r.question_id = questionID)) =
          some a := by
      cases hcase : db.find?
          (fun r => decide (r.team_id = teamID ∧ r.question_id = questionID)) with
      | none =>
        exfalso
        have hdef : GetQuestionAttempts db teamID questionID now =
            ⟨teamID, questionID, 0, 0, now⟩ := by
          simp only [GetQuestionAttempts]
          rw [hcase]
        rw [hdef] at h
        simp at h
      | some a =>
        exact ⟨a, rfl⟩
    have hget : GetQuestionAttempts db teamID questionID now = a := by
      simp only [GetQuestionAttempts]
      rw [hfind]
    have hany : db.any
        (fun r => decide (r.team_id = teamID ∧ r.question_id = questionID)) =
          true := by
      rw [List.any_eq_true]
      refine ⟨a, List.mem_of_find?_eq_some hfind, ?_⟩
      have hpa := List.find?_some hfind
      simpa using hpa
    have hrec : (RecordWrongAttempt db teamID questionID questionPoints now).2.2 =
        upsertAttempt db teamID questionID (a.wrong_attempts + 1)
          (a.total_penalty + penaltySchedule a.wrong_attempts questionPoints)
          now := by
      simp only [RecordWrongAttempt, hget]
    have hup : upsertAttempt db teamID questionID (a.wrong_attempts + 1)
        (a.total_penalty + penaltySchedule a.wrong_attempts questionPoints)
        now =
        db.map (fun r =>
          if r.team_id = teamID ∧ r.question_id = questionID then
            (⟨teamID, questionID, a.wrong_attempts + 1,
              a.total_penalty + penaltySchedule a.wrong_attempts questionPoints,
              now⟩ : QuestionAttempt)
          else r) := by
      unfold upsertAttempt
      rw [if_pos hany]
    have hfound : ((db.map (fun r =>
        if r.team_id = teamID ∧ r.question_id = questionID then
          (⟨teamID, questionID, a.wrong_attempts + 1,
            a.total_penalty + penaltySchedule a.wrong_attempts questionPoints,
            now⟩ : QuestionAttempt)
        else r)).find?
        (fun r => decide (r.team_id = teamID ∧ r.question_id = questionID))) =
          some
          ⟨teamID, questionID, a.wrong_attempts + 1,
            a.total_penalty + penaltySchedule a.wrong_attempts questionPoints,
            now⟩ := by
      refine find?_map_update _ _ _ ?_ ?_ (by simp) db a hfind
      · intro x hx
        rw [if_neg (by simpa using hx)]
        exact hx
      · intro x hx
        rw [if_pos (by simpa using hx)]
    rw [hget, hrec, hup]
    simp only [GetQuestionAttempts]
    rw [hfound]
  · unfold submitWrongAnswer
    rw [hexh]
    simp

/-- Witness for C9: a stored row with 5 wrong attempts yields penalty 0,
attempts left -1, a stored count of 6, and a handler-level rejection. -/
theorem RecordWrongAttempt_past_exhaustion_witness :
    (RecordWrongAttempt [⟨1, 1, 5, 110, 0⟩] 1 1 100 3).1 = 0 ∧
    (RecordWrongAttempt [⟨1, 1, 5, 110, 0⟩] 1 1 100 3).2.1 =
      5 - ((GetQuestionAttempts [⟨1, 1, 5, 110, 0⟩] 1 1 3).wrong_attempts + 1) ∧
    (RecordWrongAttempt [⟨1, 1, 5, 110, 0⟩] 1 1 100 3).2.1 < 0 ∧
    (GetQuestionAttempts
        (RecordWrongAttempt [⟨1, 1, 5, 110, 0⟩] 1 1 100 3).2.2
        1 1 3).wrong_attempts =
      (GetQuestionAttempts [⟨1, 1, 5, 110, 0⟩] 1 1 3).wrong_attempts + 1 ∧
    IsQuestionExhausted [⟨1, 1, 5, 110, 0⟩] 1 1 3 = true ∧
    submitWrongAnswer [⟨1, 1, 5, 110, 0⟩] 1 1 100 3 =
      ([⟨1, 1, 5, 110, 0⟩], none) :=
  RecordWrongAttempt_past_exhaustion [⟨1, 1, 5, 110, 0⟩] 1 1 100 3 (by decide)

/-- C10: `IncrementQuotaCount` never reports an error; for a team with no
slot row it changes nothing (the UPDATE affects zero rows and creates none);
and for a team whose slot has already outlived `SlotDuration` it increments
the expired slot's counter in place, leaving `current_slot_start` untouched
— it performs no expiry check of its own. -/
theorem IncrementQuotaCount_no_create_no_rollover (db : List QuotaSlot)
    (teamID now t0 c : Int) :
    (IncrementQuotaCount db teamID).2 = none ∧
    ((∀ r ∈ db, r.team_id ≠ teamID) →
      IncrementQuotaCount db teamID = (db, none)) ∧
    ((⟨teamID, t0, c⟩ : QuotaSlot) ∈ db → t0 + SlotDuration ≤ now →
      (⟨teamID, t0, c + 1⟩ : QuotaSlot) ∈ (IncrementQuotaCount db teamID).1) := by
  refine ⟨rfl, ?_, ?_⟩
  · intro h
    unfold IncrementQuotaCount
    have hid : ∀ (l : List QuotaSlot), (∀ r ∈ l, r.team_id ≠ teamID) →
        l.map (fun r =>
          if r.team_id = teamID then
            { r with questions_solved_in_slot :=
                r.questions_solved_in_slot + 1 }
          else r) = l := by
      intro l
      induction l with
      | nil =>
        intro _
        rfl
      | cons x xs ih =>
        intro hl
        rw [List.map_cons, if_neg (hl x (by simp)),
          ih (fun r hr => hl r (by simp [hr]))]
    rw [hid db h]
  · intro hmem _
    have hmapped := List.mem_map_of_mem (fun r =>
      if r.team_id = teamID then
        ({ r with questions_solved_in_slot := r.questions_solved_in_slot + 1 } :
          QuotaSlot)
      else r) hmem
    simp only [eq_self_iff_true, if_true] at hmapped
    simpa [IncrementQuotaCount] using hmapped

/-- Witness for C10: incrementing team 2 on a table holding only team 1's
slot changes nothing; incrementing team 1, whose slot started at 0 and is
read at 36000 (already expired), yields count 8 with the start still 0. -/
theorem IncrementQuotaCount_no_create_no_rollover_witness :
    IncrementQuotaCount [⟨1, 0, 7⟩] 2 = ([⟨1, 0, 7⟩], none) ∧
    (⟨1, 0, 8⟩ : QuotaSlot) ∈ (IncrementQuotaCount [⟨1, 0, 7⟩] 1).1 :=
  ⟨(IncrementQuotaCount_no_create_no_rollover [⟨1, 0, 7⟩] 2 36000 0 7).2.1
     (by decide),
   (IncrementQuotaCount_no_create_no_rollover [⟨1, 0, 7⟩] 1 36000 0 7).2.2
     (by decide) (by decide)⟩

end CrypticHunt
